import Mathlib

/-!
# Verification of the deferred-publication scheduler of the linkedin-mcp server

Shallow embedding of the scheduler core of the repository:

* `ScheduledPostModel.*` — the MongoDB-backed job store
  (`src/db/models/scheaduledPosts.ts`).  The collection is a `List` of
  documents in insertion order; `updateOne` and `deleteOne` act on the
  first matching document, `find` preserves insertion order.
* `LinkedInAPI.*` — the API layer (`src/linkedin_api.ts`): `createPost`,
  `processDueScheduledPosts`, `getScheduledPosts`, `deleteScheduledPost`.
  External HTTP responses are inputs (`HttpResponse`), timestamps are
  integer epoch milliseconds passed explicitly as `now`.
* `SchedulerService.*` — the polling scheduler (`src/services/scheduler.ts`):
  both the timer callback and the manual trigger delegate to
  `LinkedInAPI.processDueScheduledPosts`.
* `LinkedInOAuthProvider.*` — the OAuth credential refresher
  (`src/services/oauth.ts`); the token storage is modelled as an in-memory
  record plus a persisted copy written by `save()`.
-/

/-- `status` field of a scheduled post document. -/
inductive Status where
  | pending
  | published
  | failed
deriving DecidableEq, Repr

/-- `PostContent` (from `PostContentSchema`): text plus optional image URL. -/
structure PostContent where
  text : String
  imageUrl : Option String := none
deriving DecidableEq, Repr

/-- A document of the `scheduledPosts` collection (`ScheduledPostSchema`).
`_id` is modelled as a `Nat` (Mongo ObjectIds are unique, opaque keys);
all timestamps are epoch milliseconds. -/
structure ScheduledPost where
  id : Nat
  content : PostContent
  scheduledTime : Int
  status : Status
  createdAt : Int
  updatedAt : Int
  error : Option String := none
  publishedAt : Option Int := none
  publishedPostId : Option String := none
deriving DecidableEq, Repr

/-- The `scheduledPosts` collection, in insertion order. -/
abbrev Store := List ScheduledPost

/-- The `$set` payload of `ScheduledPostModel.update`: a field is `some`
exactly when the partial update carries it. -/
structure PostUpdate where
  status : Option Status := none
  error : Option String := none
  publishedAt : Option Int := none
  publishedPostId : Option String := none

/-- Apply a `$set` payload to one document; `update` always also sets
`updatedAt: new Date()`. -/
def applySet (u : PostUpdate) (now : Int) (p : ScheduledPost) : ScheduledPost :=
  { p with
    status := u.status.getD p.status
    error := match u.error with | some e => some e | none => p.error
    publishedAt := match u.publishedAt with | some t => some t | none => p.publishedAt
    publishedPostId := match u.publishedPostId with | some i => some i | none => p.publishedPostId
    updatedAt := now }

/-- The fresh document built by `ScheduledPostModel.create`
(status `pending`, createdAt/updatedAt = now). -/
def ScheduledPostModel.createDoc (id : Nat) (content : PostContent)
    (scheduledTime : Int) (now : Int) : ScheduledPost :=
  { id := id
    content := content
    scheduledTime := scheduledTime
    status := Status.pending
    createdAt := now
    updatedAt := now }

/-- `ScheduledPostModel.create`: `insertOne` appends the fresh document and the
created document is returned. -/
def ScheduledPostModel.create (id : Nat) (content : PostContent)
    (scheduledTime : Int) (now : Int) (store : Store) : ScheduledPost × Store :=
  let doc := ScheduledPostModel.createDoc id content scheduledTime now
  (doc, store ++ [doc])

/-- Insert into a list sorted by `scheduledTime` ascending (stable). -/
def insertByTime (p : ScheduledPost) : Store → Store
  | [] => [p]
  | q :: rest =>
      if q.scheduledTime ≤ p.scheduledTime then q :: insertByTime p rest
      else p :: q :: rest

/-- Stable sort by `scheduledTime` ascending, modelling
`.sort({ scheduledTime: 1 })`. -/
def sortByTime : Store → Store
  | [] => []
  | p :: rest => insertByTime p (sortByTime rest)

/-- `ScheduledPostModel.getAll` with the default empty filter: every document,
sorted by `scheduledTime` ascending. -/
def ScheduledPostModel.getAll (store : Store) : Store :=
  sortByTime store

/-- `ScheduledPostModel.getDuePosts`: documents with
`status: "pending", scheduledTime: { $lte: new Date() }`. -/
def ScheduledPostModel.getDuePosts (now : Int) (store : Store) : Store :=
  store.filter (fun p => p.status = Status.pending ∧ p.scheduledTime ≤ now)

/-- `ScheduledPostModel.getById`: `findOne({ _id })`, first match. -/
def ScheduledPostModel.getById (id : Nat) (store : Store) : Option ScheduledPost :=
  store.find? (fun p => p.id = id)

/-- `ScheduledPostModel.update`: `updateOne({ _id: id }, { $set: ... })` —
the filter is keyed on `_id` only; the first matching document is updated and
the boolean is `matchedCount > 0`. -/
def ScheduledPostModel.update (id : Nat) (u : PostUpdate) (now : Int) :
    Store → Bool × Store
  | [] => (false, [])
  | p :: rest =>
      if p.id = id then (true, applySet u now p :: rest)
      else
        let r := ScheduledPostModel.update id u now rest
        (r.1, p :: r.2)

/-- `ScheduledPostModel.markAsPublished`: `update` with
`{ status: "published", publishedAt: new Date(), publishedPostId }`. -/
def ScheduledPostModel.markAsPublished (id : Nat) (publishedPostId : String)
    (now : Int) (store : Store) : Bool × Store :=
  ScheduledPostModel.update id
    { status := some Status.published
      publishedAt := some now
      publishedPostId := some publishedPostId } now store

/-- `ScheduledPostModel.markAsFailed`: `update` with
`{ status: "failed", error }`. -/
def ScheduledPostModel.markAsFailed (id : Nat) (error : String)
    (now : Int) (store : Store) : Bool × Store :=
  ScheduledPostModel.update id
    { status := some Status.failed, error := some error } now store

/-- `ScheduledPostModel.delete`: `deleteOne({ _id: id })` — removes the first
matching document; the boolean is `deletedCount > 0`. -/
def ScheduledPostModel.deleteOne (id : Nat) : Store → Bool × Store
  | [] => (false, [])
  | p :: rest =>
      if p.id = id then (true, rest)
      else
        let r := ScheduledPostModel.deleteOne id rest
        (r.1, p :: r.2)

/-- An external HTTP response to the `ugcPosts` publish call, as observed by
`createPost`: `ok` is `response.ok`, `status` the HTTP status code, `body` the
error text read on failure, `postId` the `id` field of the JSON body on
success. -/
structure HttpResponse where
  ok : Bool
  status : Nat
  body : String := ""
  postId : String := ""
deriving DecidableEq, Repr

/-- `LinkedInAPI.createPost` (`src/linkedin_api.ts`), as a function of the
publish response: on `!postResponse.ok` it throws
`Failed to create LinkedIn post: <body>`, which the surrounding catch rethrows
as `LinkedIn API error: <message>`; on success it returns
`Post published with ID: <id>`.  The thrown error is a plain `Error` carrying
only the message — no field records whether `status` was a 4xx or a 5xx. -/
def LinkedInAPI.createPost (resp : HttpResponse) : Except String String :=
  if resp.ok then
    Except.ok ("Post published with ID: " ++ resp.postId)
  else
    Except.error ("LinkedIn API error: " ++ "Failed to create LinkedIn post: " ++ resp.body)

/-- `result.match(/ID: (.+)/)` in `processDueScheduledPosts`: the capture is
everything after the first `"ID: "` (greedy, at least one character), else
`"unknown"`. -/
def extractPostId (result : String) : String :=
  match result.splitOn "ID: " with
  | _ :: rest@(_ :: _) =>
      let tail := String.intercalate "ID: " rest
      if tail.isEmpty then "unknown" else tail
  | _ => "unknown"

/-- The per-post loop body of `LinkedInAPI.processDueScheduledPosts`, folded
over the due-post snapshot.  `env` gives the external response to the publish
call for a given post id.  Returns the `publishedCount`, the final store, and
the trace of post ids for which `createPost` was invoked (one external publish
attempt each), in order. -/
def processPosts (env : Nat → HttpResponse) (now : Int) :
    List ScheduledPost → Nat → Store → List Nat → Nat × Store × List Nat
  | [], count, store, calls => (count, store, calls)
  | post :: rest, count, store, calls =>
      let calls := calls ++ [post.id]
      match LinkedInAPI.createPost (env post.id) with
      | Except.ok result =>
          let postId := extractPostId result
          let r := ScheduledPostModel.markAsPublished post.id postId now store
          processPosts env now rest (count + 1) r.2 calls
      | Except.error msg =>
          let r := ScheduledPostModel.markAsFailed post.id msg now store
          processPosts env now rest count r.2 calls

/-- `LinkedInAPI.processDueScheduledPosts`: fetch the due snapshot
(`getDuePosts`), then for each post attempt the publish call; on success mark
it published (storing the extracted post id) and increment `publishedCount`,
on any error mark it failed with the error message.  The returned triple is
`(publishedCount, final store, publish-call trace)`. -/
def LinkedInAPI.processDueScheduledPosts (env : Nat → HttpResponse) (now : Int)
    (store : Store) : Nat × Store × List Nat :=
  let duePosts := ScheduledPostModel.getDuePosts now store
  processPosts env now duePosts 0 store []

/-- `substring(0, 50)` plus the `'...'` ellipsis for longer texts, from the
formatter in `getScheduledPosts`. -/
def truncateText (s : String) : String :=
  (s.take 50) ++ (if 50 < s.length then "..." else "")

/-- Rendering of one epoch-millisecond timestamp; stands for the
locale-dependent `Date.toLocaleString()`. -/
def formatTime (t : Int) : String :=
  toString t

/-- The status part of one line of `getScheduledPosts`. -/
def formatStatus (post : ScheduledPost) : String :=
  match post.status with
  | Status.pending => "Scheduled for " ++ formatTime post.scheduledTime
  | Status.published =>
      "Published at " ++ (match post.publishedAt with
        | some t => formatTime t
        | none => "unknown")
  | Status.failed =>
      "Failed: " ++ (match post.error with
        | some e => e
        | none => "Unknown error")

/-- One formatted line of `getScheduledPosts` (1-based index). -/
def formatPostLine (index : Nat) (post : ScheduledPost) : String :=
  toString (index + 1) ++ ". \x22" ++ truncateText post.content.text ++ "\x22 - "
    ++ formatStatus post ++ " (ID: " ++ toString post.id ++ ")"

/-- `LinkedInAPI.getScheduledPosts`: fetches `ScheduledPostModel.getAll()` —
no status filter — and formats every returned post, or reports that none were
found. -/
def LinkedInAPI.getScheduledPosts (store : Store) : String :=
  let scheduledPosts := ScheduledPostModel.getAll store
  if scheduledPosts.length = 0 then "No scheduled posts found."
  else
    String.intercalate "\n"
      ((List.range scheduledPosts.length).zip scheduledPosts
        |>.map (fun ip => formatPostLine ip.1 ip.2))

/-- `LinkedInAPI.deleteScheduledPost`: not-found when `getById` is null,
conflict when the post's status is `published`, otherwise `delete`; the
success message carries the id.  Errors are thrown (the outer catch
rethrows unchanged), so no store mutation accompanies an error. -/
def LinkedInAPI.deleteScheduledPost (id : Nat) (store : Store) :
    Except String (String × Store) :=
  match ScheduledPostModel.getById id store with
  | none => Except.error "Scheduled post not found"
  | some post =>
      if post.status = Status.published then
        Except.error "Cannot delete a post that has already been published"
      else
        let r := ScheduledPostModel.deleteOne id store
        if r.1 then
          Except.ok ("Successfully deleted scheduled post with ID: " ++ toString id, r.2)
        else
          Except.error "Failed to delete scheduled post"

/-- The body of the timer callback `SchedulerService.processDuePosts`
(`src/services/scheduler.ts`): it awaits
`linkedInApi.processDueScheduledPosts()`, logs the count and swallows errors;
its effect on the store is that of `processDueScheduledPosts`. -/
def SchedulerService.processDuePosts (env : Nat → HttpResponse) (now : Int)
    (store : Store) : Store :=
  (LinkedInAPI.processDueScheduledPosts env now store).2.1

/-- `SchedulerService.manuallyProcessDuePosts`: returns
`await linkedInApi.processDueScheduledPosts()` directly — the same code path
as the timer callback, with the count returned to the caller.  No flag or
lock is consulted before invoking it. -/
def SchedulerService.manuallyProcessDuePosts (env : Nat → HttpResponse) (now : Int)
    (store : Store) : Nat × Store × List Nat :=
  LinkedInAPI.processDueScheduledPosts env now store

/-- The `TokenStorage` record of `src/services/oauth.ts`: access token,
refresh token (empty string when absent — JS falsy), absolute expiry in epoch
milliseconds, owning user id. -/
structure TokenStorage where
  accessToken : String := ""
  refreshToken : String := ""
  expiresAt : Int := 0
  userId : String := ""
deriving DecidableEq, Repr

/-- The provider's credential state: the in-memory `tokenStorage` fields plus
the persisted copy written by `tokenStorage.save()`. -/
structure OAuthState where
  mem : TokenStorage
  disk : TokenStorage
deriving DecidableEq, Repr

/-- The external authorization server's answer to the `refresh_token`
exchange: `ok` is `response.ok`; on success `accessToken` and `expiresIn`
(seconds) are the JSON fields, and `refreshTok` is the optional
`refresh_token` (`none` when absent or empty — JS falsy check). -/
structure RefreshResponse where
  ok : Bool
  accessToken : String := ""
  refreshTok : Option String := none
  expiresIn : Int := 0
deriving DecidableEq, Repr

/-- `LinkedInOAuthProvider.refreshToken`: returns `false` without any call
when no refresh token is held; on a non-ok response the thrown error is
caught and `false` returned with nothing mutated; on success the in-memory
fields are set (`expiresAt = Date.now() + expires_in * 1000`, the refresh
token only when the response carries one), `save()` persists them, and `true`
is returned — write-then-persist-then-return.  The persistence write is
modelled as succeeding. -/
def LinkedInOAuthProvider.refreshToken (resp : RefreshResponse) (now : Int)
    (st : OAuthState) : Bool × OAuthState :=
  if st.mem.refreshToken = "" then (false, st)
  else if resp.ok then
    let mem :=
      { st.mem with
        accessToken := resp.accessToken
        refreshToken := match resp.refreshTok with
          | some r => r
          | none => st.mem.refreshToken
        expiresAt := now + resp.expiresIn * 1000 }
    (true, { mem := mem, disk := mem })
  else (false, st)

/-- `LinkedInOAuthProvider.getAccessToken`: when
`expiresAt < Date.now() + 5 * 60 * 1000` it awaits `refreshToken()` and throws
when that returns `false`; otherwise (and after a successful refresh) it
returns `this.tokenStorage.accessToken`.  The pair carries the result and the
final credential state. -/
def LinkedInOAuthProvider.getAccessToken (resp : RefreshResponse) (now : Int)
    (st : OAuthState) : Except String String × OAuthState :=
  if st.mem.expiresAt < now + 5 * 60 * 1000 then
    let r := LinkedInOAuthProvider.refreshToken resp now st
    if r.1 then (Except.ok r.2.mem.accessToken, r.2)
    else (Except.error "Failed to refresh token and current token is expired", r.2)
  else (Except.ok st.mem.accessToken, st)

/-- `LinkedInOAuthProvider.hasValidToken` as the source has it: `false` when
no access token is held; otherwise, when `expiresAt < Date.now()`, the line
that was meant to `return await this.refreshToken()` has its `return await`
sitting inside the trailing `// Try to refresh the token return await`
comment, so the statement is a bare `this.refreshToken();` whose result is
discarded, and `return true` runs regardless of the refresh outcome. -/
def LinkedInOAuthProvider.hasValidToken (resp : RefreshResponse) (now : Int)
    (st : OAuthState) : Bool × OAuthState :=
  if st.mem.accessToken = "" then (false, st)
  else if st.mem.expiresAt < now then
    let r := LinkedInOAuthProvider.refreshToken resp now st
    (true, r.2)
  else (true, st)

/-- The operations that touch the job store, for the state-machine claims:
a caller scheduling a post, one due-job evaluation cycle, and a caller
deletion. -/
inductive SysOp where
  | schedule (content : PostContent) (time : Int)
  | processDue (env : Nat → HttpResponse)
  | deletePost (id : Nat)

/-- System state: the collection plus the next fresh document id. -/
structure SysState where
  store : Store
  nextId : Nat

/-- One step of the system: the operation's effect on the store, together
with the trace of publish-call attempts it makes (non-empty only for
`processDue`). -/
def sysStep (now : Int) (op : SysOp) (s : SysState) : SysState × List Nat :=
  match op with
  | SysOp.schedule content time =>
      let r := ScheduledPostModel.create s.nextId content time now s.store
      ({ store := r.2, nextId := s.nextId + 1 }, [])
  | SysOp.processDue env =>
      let r := LinkedInAPI.processDueScheduledPosts env now s.store
      ({ s with store := r.2.1 }, r.2.2)
  | SysOp.deletePost id =>
      match LinkedInAPI.deleteScheduledPost id s.store with
      | Except.ok r => ({ s with store := r.2 }, [])
      | Except.error _ => (s, [])

/-- The reachable-state invariant: document ids are pairwise distinct and
below the fresh-id counter. -/
def SysState.Inv (s : SysState) : Prop :=
  (s.store.map ScheduledPost.id).Nodup ∧ ∀ p ∈ s.store, p.id < s.nextId

/-- The progress of one in-flight due-cycle, split at the `await` boundaries
of `processDueScheduledPosts`: `none` before the `getDuePosts` snapshot is
taken, `some l` when the posts of `l` are still to be processed. -/
structure CycleState where
  remaining : Option (List ScheduledPost)
deriving Repr

/-- One micro-step of an in-flight cycle against the shared store: either
take the due snapshot, or process the next snapshot post (publish attempt
plus status mark).  Returns the new cycle state, the store, and the publish
calls made (the snapshot loop calls `createPost` for every snapshot entry,
whatever the entry's current status in the store). -/
def cycleStep (env : Nat → HttpResponse) (now : Int) :
    CycleState → Store → CycleState × Store × List Nat
  | ⟨none⟩, store => (⟨some (ScheduledPostModel.getDuePosts now store)⟩, store, [])
  | ⟨some []⟩, store => (⟨some []⟩, store, [])
  | ⟨some (post :: rest)⟩, store =>
      match LinkedInAPI.createPost (env post.id) with
      | Except.ok result =>
          let r := ScheduledPostModel.markAsPublished post.id (extractPostId result) now store
          (⟨some rest⟩, r.2, [post.id])
      | Except.error msg =>
          let r := ScheduledPostModel.markAsFailed post.id msg now store
          (⟨some rest⟩, r.2, [post.id])

/-- Run two concurrently in-flight cycles (for example the timer-triggered
one and a manually-triggered one — `SchedulerService` holds no lock or busy
flag keeping them apart) under a given interleaving: `true` lets the first
cycle take its next micro-step, `false` the second.  Returns the final store
and the combined publish-call trace. -/
def runInterleaving (env : Nat → HttpResponse) (now : Int) :
    List Bool → CycleState → CycleState → Store → Store × List Nat
  | [], _, _, store => (store, [])
  | b :: bs, c1, c2, store =>
      if b then
        let r := cycleStep env now c1 store
        let rest := runInterleaving env now bs r.1 c2 r.2.1
        (rest.1, r.2.2 ++ rest.2)
      else
        let r := cycleStep env now c2 store
        let rest := runInterleaving env now bs c1 r.1 r.2.1
        (rest.1, r.2.2 ++ rest.2)

/-- Number of documents in status `published`. -/
def countPub (store : Store) : Nat :=
  (store.filter (fun p => p.status = Status.published)).length

/-- The cumulative effect of one cycle's per-post work on the store, used to
describe an in-flight cycle that runs to completion. -/
def procAll (env : Nat → HttpResponse) (now : Int) :
    List ScheduledPost → Store → Store
  | [], store => store
  | post :: rest, store =>
      match LinkedInAPI.createPost (env post.id) with
      | Except.ok result =>
          procAll env now rest
            (ScheduledPostModel.markAsPublished post.id (extractPostId result) now store).2
      | Except.error msg =>
          procAll env now rest
            (ScheduledPostModel.markAsFailed post.id msg now store).2

/-! ### Concrete sample inputs used by instance checks -/

/-- A pending post, due at any time from 5 on. -/
def examplePending : ScheduledPost :=
  { id := 1, content := { text := "hello" }, scheduledTime := 5,
    status := Status.pending, createdAt := 0, updatedAt := 0 }

/-- A post already published. -/
def examplePublished : ScheduledPost :=
  { id := 1, content := { text := "hi" }, scheduledTime := 3,
    status := Status.published, createdAt := 0, updatedAt := 0,
    publishedAt := some 5 }

/-- A post that ended in status `failed`. -/
def exampleFailed : ScheduledPost :=
  { id := 2, content := { text := "boom" }, scheduledTime := 4,
    status := Status.failed, createdAt := 0, updatedAt := 0,
    error := some "LinkedIn API error: Failed to create LinkedIn post: Bad Request" }

/-- An external platform that accepts every publish call. -/
def envOk : Nat → HttpResponse :=
  fun _ => { ok := true, status := 201, postId := "urn123" }

/-- An external platform answering every publish call with a transient
server error (HTTP 500). -/
def envServerError : Nat → HttpResponse :=
  fun _ => { ok := false, status := 500, body := "Internal Server Error" }

/-- A credential state whose access token expired at epoch 0 and that holds
no refresh token. -/
def exampleExpiredState : OAuthState :=
  { mem := { accessToken := "token123", refreshToken := "", expiresAt := 0, userId := "u" },
    disk := { accessToken := "token123", refreshToken := "", expiresAt := 0, userId := "u" } }

/-- A credential state whose access token expired, with a refresh token
available. -/
def staleState : OAuthState :=
  { mem := { accessToken := "old", refreshToken := "r", expiresAt := 0, userId := "u" },
    disk := { accessToken := "old", refreshToken := "r", expiresAt := 0, userId := "u" } }

/-- A successful refresh exchange granting only 1 second of lifetime. -/
def shortGrant : RefreshResponse :=
  { ok := true, accessToken := "new", refreshTok := none, expiresIn := 1 }

/-- A successful refresh exchange granting one hour of lifetime. -/
def hourGrant : RefreshResponse :=
  { ok := true, accessToken := "new", refreshTok := none, expiresIn := 3600 }

/-- A failed refresh exchange. -/
def refreshFailResp : RefreshResponse :=
  { ok := false }

/-! ## Basic lemmas about the store operations -/

/-- A `$set` payload never changes `_id`. -/
theorem applySet_id (u : PostUpdate) (now : Int) (p : ScheduledPost) :
    (applySet u now p).id = p.id := rfl

/-- `update` preserves the sequence of document ids. -/
theorem update_map_id (id : Nat) (u : PostUpdate) (now : Int) :
    ∀ store : Store,
      ((ScheduledPostModel.update id u now store).2).map ScheduledPost.id
        = store.map ScheduledPost.id
  | [] => rfl
  | p :: rest => by
      by_cases hp : p.id = id
      · simp [ScheduledPostModel.update, hp, applySet_id]
      · simp [ScheduledPostModel.update, hp, update_map_id id u now rest]

/-- Looking up an id other than the updated one is unchanged by `update`. -/
theorem getById_update_ne (i id : Nat) (u : PostUpdate) (now : Int) (h : i ≠ id) :
    ∀ store : Store,
      ScheduledPostModel.getById i (ScheduledPostModel.update id u now store).2
        = ScheduledPostModel.getById i store
  | [] => rfl
  | p :: rest => by
      by_cases hp : p.id = id
      · have hpi : ¬ p.id = i := by intro hc; exact h (by rw [← hc, hp])
        simp [ScheduledPostModel.update, hp, ScheduledPostModel.getById,
          List.find?_cons, applySet_id, hpi, Ne.symm h]
      · by_cases hq : p.id = i
        · simp only [ScheduledPostModel.update, if_neg hp]
          simp [ScheduledPostModel.getById, List.find?_cons, hq]
        · simp only [ScheduledPostModel.update, if_neg hp]
          simpa [ScheduledPostModel.getById, List.find?_cons, hq]
            using getById_update_ne i id u now h rest

/-- `update` rewrites exactly the document `getById` finds. -/
theorem getById_update_self (id : Nat) (u : PostUpdate) (now : Int) :
    ∀ store : Store, ∀ q : ScheduledPost,
      ScheduledPostModel.getById id store = some q →
      ScheduledPostModel.getById id (ScheduledPostModel.update id u now store).2
        = some (applySet u now q)
  | [], q => by simp [ScheduledPostModel.getById]
  | p :: rest, q => by
      by_cases hp : p.id = id
      · simp [ScheduledPostModel.getById, List.find?_cons, hp,
          ScheduledPostModel.update, applySet_id]
        intro h; rw [h]
      · simp only [ScheduledPostModel.getById, List.find?_cons, hp,
          ScheduledPostModel.update, decide_eq_true_eq, if_neg hp]
        simpa [ScheduledPostModel.getById, List.find?_cons, hp]
          using getById_update_self id u now rest q

/-- `update` reports a match exactly when a document with the id exists. -/
theorem update_matched_iff (id : Nat) (u : PostUpdate) (now : Int) :
    ∀ store : Store,
      (ScheduledPostModel.update id u now store).1 = true
        ↔ ∃ p ∈ store, p.id = id
  | [] => by simp [ScheduledPostModel.update]
  | p :: rest => by
      by_cases hp : p.id = id
      · simp [ScheduledPostModel.update, hp]
      · simp only [ScheduledPostModel.update, if_neg hp]
        rw [update_matched_iff id u now rest]
        constructor
        · rintro ⟨q, hq, hqid⟩; exact ⟨q, List.mem_cons_of_mem _ hq, hqid⟩
        · rintro ⟨q, hq, hqid⟩
          rcases List.mem_cons.mp hq with h | h
          · exact absurd (h ▸ hqid) hp
          · exact ⟨q, h, hqid⟩

/-- A successful `getById` returns a member with the requested id. -/
theorem getById_mem {id : Nat} {store : Store} {q : ScheduledPost}
    (h : ScheduledPostModel.getById id store = some q) : q ∈ store ∧ q.id = id := by
  refine ⟨List.mem_of_find?_eq_some h, ?_⟩
  have := List.find?_some h
  simpa using this

/-- With pairwise-distinct ids, `getById` on a member's id returns exactly
that member. -/
theorem getById_of_mem_nodup :
    ∀ store : Store, (store.map ScheduledPost.id).Nodup →
      ∀ p ∈ store, ScheduledPostModel.getById p.id store = some p
  | [], _, p, hp => absurd hp (List.not_mem_nil p)
  | q :: rest, hn, p, hp => by
      rcases List.mem_cons.mp hp with h | h
      · subst h
        simp [ScheduledPostModel.getById, List.find?_cons]
      · have hq : ¬ q.id = p.id := by
          intro hc
          have : q.id ∈ rest.map ScheduledPost.id := hc ▸ List.mem_map_of_mem _ h
          exact (List.nodup_cons.mp hn).1 this
        have hrest := getById_of_mem_nodup rest (List.nodup_cons.mp hn).2 p h
        simpa [ScheduledPostModel.getById, List.find?_cons, hq] using hrest

/-- With pairwise-distinct ids, equal ids force equal documents. -/
theorem eq_of_mem_of_id_eq {store : Store}
    (hn : (store.map ScheduledPost.id).Nodup) {a b : ScheduledPost}
    (ha : a ∈ store) (hb : b ∈ store) (h : a.id = b.id) : a = b := by
  have h1 := getById_of_mem_nodup store hn a ha
  have h2 := getById_of_mem_nodup store hn b hb
  rw [h] at h1
  exact Option.some.inj (h1.symm.trans h2)

/-- Marking a not-yet-published document as published raises the published
count by one. -/
theorem countPub_markAsPublished (id : Nat) (pid : String) (now : Int) :
    ∀ store : Store, ∀ q : ScheduledPost,
      ScheduledPostModel.getById id store = some q →
      q.status ≠ Status.published →
      countPub (ScheduledPostModel.markAsPublished id pid now store).2
        = countPub store + 1
  | [], q => by simp [ScheduledPostModel.getById]
  | p :: rest, q => by
      intro hfind hq
      by_cases hp : p.id = id
      · have hpq : p = q := by
          have := hfind
          simpa [ScheduledPostModel.getById, List.find?_cons, hp] using this
        subst hpq
        simp [ScheduledPostModel.markAsPublished, ScheduledPostModel.update,
          hp, countPub, applySet, hq]
      · have hfind' : ScheduledPostModel.getById id rest = some q := by
          simpa [ScheduledPostModel.getById, List.find?_cons, hp] using hfind
        have ih := countPub_markAsPublished id pid now rest q hfind' hq
        by_cases hps : p.status = Status.published
        · simp only [ScheduledPostModel.markAsPublished, ScheduledPostModel.update,
            if_neg hp] at ih ⊢
          simp [countPub, hps] at ih ⊢
          omega
        · simp only [ScheduledPostModel.markAsPublished, ScheduledPostModel.update,
            if_neg hp] at ih ⊢
          simp [countPub, hps] at ih ⊢
          omega

/-- Marking a not-yet-published document as failed leaves the published count
unchanged. -/
theorem countPub_markAsFailed (id : Nat) (e : String) (now : Int) :
    ∀ store : Store, ∀ q : ScheduledPost,
      ScheduledPostModel.getById id store = some q →
      q.status ≠ Status.published →
      countPub (ScheduledPostModel.markAsFailed id e now store).2 = countPub store
  | [], q => by simp [ScheduledPostModel.getById]
  | p :: rest, q => by
      intro hfind hq
      by_cases hp : p.id = id
      · have hpq : p = q := by
          have := hfind
          simpa [ScheduledPostModel.getById, List.find?_cons, hp] using this
        subst hpq
        simp [ScheduledPostModel.markAsFailed, ScheduledPostModel.update,
          hp, countPub, applySet, hq]
      · have hfind' : ScheduledPostModel.getById id rest = some q := by
          simpa [ScheduledPostModel.getById, List.find?_cons, hp] using hfind
        have ih := countPub_markAsFailed id e now rest q hfind' hq
        by_cases hps : p.status = Status.published
        · simp only [ScheduledPostModel.markAsFailed, ScheduledPostModel.update,
            if_neg hp] at ih ⊢
          simp [countPub, hps] at ih ⊢
          omega
        · simp only [ScheduledPostModel.markAsFailed, ScheduledPostModel.update,
            if_neg hp] at ih ⊢
          simp [countPub, hps] at ih ⊢
          omega

/-- Membership in the due-post query result. -/
theorem mem_getDuePosts {now : Int} {store : Store} {p : ScheduledPost} :
    p ∈ ScheduledPostModel.getDuePosts now store
      ↔ p ∈ store ∧ p.status = Status.pending ∧ p.scheduledTime ≤ now := by
  simp [ScheduledPostModel.getDuePosts, List.mem_filter, and_assoc]

/-- The due-post snapshot inherits distinct ids from the store. -/
theorem getDuePosts_nodup {now : Int} {store : Store}
    (hn : (store.map ScheduledPost.id).Nodup) :
    ((ScheduledPostModel.getDuePosts now store).map ScheduledPost.id).Nodup := by
  have hsub : List.Sublist (ScheduledPostModel.getDuePosts now store) store :=
    List.filter_sublist store
  exact (hsub.map ScheduledPost.id).nodup hn

/-- `deleteOne` reports a deletion exactly when a document with the id
exists. -/
theorem deleteOne_found (id : Nat) :
    ∀ store : Store,
      (ScheduledPostModel.deleteOne id store).1 = true ↔ ∃ p ∈ store, p.id = id
  | [] => by simp [ScheduledPostModel.deleteOne]
  | p :: rest => by
      by_cases hp : p.id = id
      · simp [ScheduledPostModel.deleteOne, hp]
      · simp only [ScheduledPostModel.deleteOne, if_neg hp]
        rw [deleteOne_found id rest]
        constructor
        · rintro ⟨q, hq, hqid⟩
          exact ⟨q, List.mem_cons_of_mem _ hq, hqid⟩
        · rintro ⟨q, hq, hqid⟩
          rcases List.mem_cons.mp hq with h | h
          · exact absurd (h ▸ hqid) hp
          · exact ⟨q, h, hqid⟩

/-- Everything left after `deleteOne` was in the store before. -/
theorem mem_of_mem_deleteOne (id : Nat) :
    ∀ store : Store, ∀ p ∈ (ScheduledPostModel.deleteOne id store).2, p ∈ store
  | [] => by simp [ScheduledPostModel.deleteOne]
  | q :: rest => by
      by_cases hq : q.id = id
      · intro p hp
        simp only [ScheduledPostModel.deleteOne, if_pos hq] at hp
        exact List.mem_cons_of_mem _ hp
      · intro p hp
        simp only [ScheduledPostModel.deleteOne, if_neg hq] at hp
        rcases List.mem_cons.mp hp with h | h
        · exact h ▸ List.mem_cons_self q rest
        · exact List.mem_cons_of_mem _ (mem_of_mem_deleteOne id rest p h)

/-- With pairwise-distinct ids, no document with the deleted id survives
`deleteOne`. -/
theorem deleteOne_id_gone (id : Nat) :
    ∀ store : Store, (store.map ScheduledPost.id).Nodup →
      ∀ p ∈ (ScheduledPostModel.deleteOne id store).2, p.id ≠ id
  | [], _ => by simp [ScheduledPostModel.deleteOne]
  | q :: rest, hn => by
      by_cases hq : q.id = id
      · intro p hp
        simp only [ScheduledPostModel.deleteOne, if_pos hq] at hp
        intro hc
        have : q.id ∈ rest.map ScheduledPost.id :=
          (hq.trans hc.symm) ▸ List.mem_map_of_mem _ hp
        exact (List.nodup_cons.mp hn).1 this
      · intro p hp
        simp only [ScheduledPostModel.deleteOne, if_neg hq] at hp
        rcases List.mem_cons.mp hp with h | h
        · exact h ▸ hq
        · exact deleteOne_id_gone id rest (List.nodup_cons.mp hn).2 p h

/-- Membership is preserved by the scheduled-time insertion. -/
theorem mem_insertByTime {p a : ScheduledPost} :
    ∀ l : Store, a ∈ insertByTime p l ↔ a = p ∨ a ∈ l
  | [] => by simp [insertByTime]
  | q :: rest => by
      by_cases hq : q.scheduledTime ≤ p.scheduledTime
      · simp only [insertByTime, if_pos hq, List.mem_cons, mem_insertByTime rest]
        tauto
      · simp only [insertByTime, if_neg hq, List.mem_cons]

/-- Membership is preserved by the scheduled-time sort. -/
theorem mem_sortByTime {a : ScheduledPost} :
    ∀ store : Store, a ∈ sortByTime store ↔ a ∈ store
  | [] => Iff.rfl
  | p :: rest => by
      simp only [sortByTime, mem_insertByTime, mem_sortByTime rest, List.mem_cons]

/-- Main loop lemma for `processPosts`: over a snapshot of distinct,
still-pending documents, the loop (a) returns the incoming count plus the
number of ok publish responses, (b) makes exactly one publish call per
snapshot entry, in order, (c) raises the store's published count by the
number of ok responses, (d) leaves every document outside the snapshot
untouched, and (e) drives each snapshot entry to the terminal outcome fixed
by its response — `published` on ok, `failed` with the error message
otherwise. -/
theorem processPosts_spec (env : Nat → HttpResponse) (now : Int) :
    ∀ l : List ScheduledPost, ∀ (count : Nat) (store : Store) (calls : List Nat),
      (l.map ScheduledPost.id).Nodup →
      (∀ p ∈ l, ScheduledPostModel.getById p.id store = some p) →
      (∀ p ∈ l, p.status = Status.pending) →
      (processPosts env now l count store calls).1
          = count + (l.filter (fun p => (env p.id).ok)).length
        ∧ (processPosts env now l count store calls).2.2
            = calls ++ l.map ScheduledPost.id
        ∧ countPub (processPosts env now l count store calls).2.1
            = countPub store + (l.filter (fun p => (env p.id).ok)).length
        ∧ (∀ i : Nat, (∀ p ∈ l, p.id ≠ i) →
            ScheduledPostModel.getById i (processPosts env now l count store calls).2.1
              = ScheduledPostModel.getById i store)
        ∧ (∀ p ∈ l, ∃ q : ScheduledPost,
            ScheduledPostModel.getById p.id (processPosts env now l count store calls).2.1
                = some q
              ∧ (if (env p.id).ok = true then q.status = Status.published
                 else q.status = Status.failed ∧ q.error = some ("LinkedIn API error: "
                   ++ "Failed to create LinkedIn post: " ++ (env p.id).body)))
  | [], count, store, calls => by
      intro _ _ _
      simp [processPosts]
  | h :: rest, count, store, calls => by
      intro hn hmem hpend
      have hfind : ScheduledPostModel.getById h.id store = some h :=
        hmem h (List.mem_cons_self h rest)
      have hpendh : h.status = Status.pending := hpend h (List.mem_cons_self h rest)
      have hnotpub : h.status ≠ Status.published := by rw [hpendh]; intro hc; cases hc
      have hnc := List.nodup_cons.mp hn
      have hne : ∀ p ∈ rest, p.id ≠ h.id := by
        intro p hp hc
        exact hnc.1 (hc ▸ List.mem_map_of_mem ScheduledPost.id hp)
      cases hok : (env h.id).ok with
      | true =>
          have hstep : processPosts env now (h :: rest) count store calls
              = processPosts env now rest (count + 1)
                  (ScheduledPostModel.markAsPublished h.id
                    (extractPostId ("Post published with ID: " ++ (env h.id).postId))
                    now store).2
                  (calls ++ [h.id]) := by
            simp [processPosts, LinkedInAPI.createPost, hok]
          have hmem1 : ∀ p ∈ rest,
              ScheduledPostModel.getById p.id (ScheduledPostModel.markAsPublished h.id
                (extractPostId ("Post published with ID: " ++ (env h.id).postId))
                now store).2 = some p := by
            intro p hp
            rw [ScheduledPostModel.markAsPublished,
              getById_update_ne p.id h.id _ now (hne p hp) store]
            exact hmem p (List.mem_cons_of_mem _ hp)
          have hcount1 : countPub (ScheduledPostModel.markAsPublished h.id
              (extractPostId ("Post published with ID: " ++ (env h.id).postId))
              now store).2 = countPub store + 1 :=
            countPub_markAsPublished h.id _ now store h hfind hnotpub
          obtain ⟨iha, ihb, ihc, ihd, ihe⟩ :=
            processPosts_spec env now rest (count + 1)
              (ScheduledPostModel.markAsPublished h.id
                (extractPostId ("Post published with ID: " ++ (env h.id).postId))
                now store).2
              (calls ++ [h.id]) hnc.2 hmem1
              (fun p hp => hpend p (List.mem_cons_of_mem _ hp))
          rw [hstep]
          refine ⟨?_, ?_, ?_, ?_, ?_⟩
          · rw [iha]
            simp [List.filter_cons, hok]
            omega
          · rw [ihb]
            simp
          · rw [ihc, hcount1]
            simp [List.filter_cons, hok]
            omega
          · intro i hi
            rw [ihd i (fun p hp => hi p (List.mem_cons_of_mem _ hp)),
              ScheduledPostModel.markAsPublished]
            exact getById_update_ne i h.id _ now
              (Ne.symm (hi h (List.mem_cons_self h rest))) store
          · intro p hp
            rcases List.mem_cons.mp hp with hph | hprest
            · subst hph
              refine ⟨applySet
                { status := some Status.published
                  publishedAt := some now
                  publishedPostId := some (extractPostId
                    ("Post published with ID: " ++ (env p.id).postId)) } now p, ?_, ?_⟩
              · rw [ihd p.id hne]
                rw [ScheduledPostModel.markAsPublished]
                exact getById_update_self p.id _ now store p hfind
              · simp [hok, applySet]
            · exact ihe p hprest
      | false =>
          have hstep : processPosts env now (h :: rest) count store calls
              = processPosts env now rest count
                  (ScheduledPostModel.markAsFailed h.id
                    ("LinkedIn API error: " ++ "Failed to create LinkedIn post: "
                      ++ (env h.id).body) now store).2
                  (calls ++ [h.id]) := by
            simp [processPosts, LinkedInAPI.createPost, hok]
          have hmem1 : ∀ p ∈ rest,
              ScheduledPostModel.getById p.id (ScheduledPostModel.markAsFailed h.id
                ("LinkedIn API error: " ++ "Failed to create LinkedIn post: "
                  ++ (env h.id).body) now store).2 = some p := by
            intro p hp
            rw [ScheduledPostModel.markAsFailed,
              getById_update_ne p.id h.id _ now (hne p hp) store]
            exact hmem p (List.mem_cons_of_mem _ hp)
          have hcount1 : countPub (ScheduledPostModel.markAsFailed h.id
              ("LinkedIn API error: " ++ "Failed to create LinkedIn post: "
                ++ (env h.id).body) now store).2 = countPub store :=
            countPub_markAsFailed h.id _ now store h hfind hnotpub
          obtain ⟨iha, ihb, ihc, ihd, ihe⟩ :=
            processPosts_spec env now rest count
              (ScheduledPostModel.markAsFailed h.id
                ("LinkedIn API error: " ++ "Failed to create LinkedIn post: "
                  ++ (env h.id).body) now store).2
              (calls ++ [h.id]) hnc.2 hmem1
              (fun p hp => hpend p (List.mem_cons_of_mem _ hp))
          rw [hstep]
          refine ⟨?_, ?_, ?_, ?_, ?_⟩
          · rw [iha]
            simp [List.filter_cons, hok]
          · rw [ihb]
            simp
          · rw [ihc, hcount1]
            simp [List.filter_cons, hok]
          · intro i hi
            rw [ihd i (fun p hp => hi p (List.mem_cons_of_mem _ hp)),
              ScheduledPostModel.markAsFailed]
            exact getById_update_ne i h.id _ now
              (Ne.symm (hi h (List.mem_cons_self h rest))) store
          · intro p hp
            rcases List.mem_cons.mp hp with hph | hprest
            · subst hph
              refine ⟨applySet
                { status := some Status.failed
                  error := some ("LinkedIn API error: "
                    ++ "Failed to create LinkedIn post: " ++ (env p.id).body) } now p,
                ?_, ?_⟩
              · rw [ihd p.id hne]
                rw [ScheduledPostModel.markAsFailed]
                exact getById_update_self p.id _ now store p hfind
              · simp [hok, applySet]
            · exact ihe p hprest

/-- The per-post loop keeps the sequence of document ids intact. -/
theorem processPosts_map_id (env : Nat → HttpResponse) (now : Int) :
    ∀ l : List ScheduledPost, ∀ (count : Nat) (store : Store) (calls : List Nat),
      ((processPosts env now l count store calls).2.1).map ScheduledPost.id
        = store.map ScheduledPost.id
  | [], _, _, _ => rfl
  | h :: rest, count, store, calls => by
      cases hok : (env h.id).ok with
      | true =>
          rw [show processPosts env now (h :: rest) count store calls
              = processPosts env now rest (count + 1)
                  (ScheduledPostModel.markAsPublished h.id
                    (extractPostId ("Post published with ID: " ++ (env h.id).postId))
                    now store).2 (calls ++ [h.id]) from by
            simp [processPosts, LinkedInAPI.createPost, hok]]
          rw [processPosts_map_id env now rest (count + 1) _ _,
            ScheduledPostModel.markAsPublished, update_map_id]
      | false =>
          rw [show processPosts env now (h :: rest) count store calls
              = processPosts env now rest count
                  (ScheduledPostModel.markAsFailed h.id
                    ("LinkedIn API error: " ++ "Failed to create LinkedIn post: "
                      ++ (env h.id).body) now store).2 (calls ++ [h.id]) from by
            simp [processPosts, LinkedInAPI.createPost, hok]]
          rw [processPosts_map_id env now rest count _ _,
            ScheduledPostModel.markAsFailed, update_map_id]

/-- Inversion for a successful `deleteScheduledPost`: the returned store is
the one `deleteOne` produced. -/
theorem deleteScheduledPost_ok_store {id : Nat} {store : Store} {msg : String}
    {out : Store}
    (h : LinkedInAPI.deleteScheduledPost id store = Except.ok (msg, out)) :
    out = (ScheduledPostModel.deleteOne id store).2 := by
  cases hg : ScheduledPostModel.getById id store with
  | none =>
      simp only [LinkedInAPI.deleteScheduledPost, hg] at h
      exact Except.noConfusion h
  | some post =>
      simp only [LinkedInAPI.deleteScheduledPost, hg] at h
      by_cases hs : post.status = Status.published
      · rw [if_pos hs] at h; cases h
      · rw [if_neg hs] at h
        by_cases hd : (ScheduledPostModel.deleteOne id store).1 = true
        · rw [if_pos hd] at h
          exact (congrArg Prod.snd (Except.ok.inj h)).symm
        · rw [if_neg hd] at h; cases h

/-- Letting the first in-flight cycle run all its remaining work
uninterrupted: it makes one publish call per snapshot entry and applies
`procAll` to the store. -/
theorem runInterleaving_left (env : Nat → HttpResponse) (now : Int) :
    ∀ (l : List ScheduledPost) (bs : List Bool) (c2 : CycleState) (store : Store),
      runInterleaving env now (List.replicate l.length true ++ bs) ⟨some l⟩ c2 store
        = ((runInterleaving env now bs ⟨some []⟩ c2 (procAll env now l store)).1,
            l.map ScheduledPost.id
              ++ (runInterleaving env now bs ⟨some []⟩ c2 (procAll env now l store)).2)
  | [], bs, c2, store => by simp [procAll]
  | h :: rest, bs, c2, store => by
      cases hok : (env h.id).ok with
      | true =>
          have hstep :
              runInterleaving env now (List.replicate (h :: rest).length true ++ bs)
                ⟨some (h :: rest)⟩ c2 store
              = ((runInterleaving env now (List.replicate rest.length true ++ bs)
                    ⟨some rest⟩ c2
                    (ScheduledPostModel.markAsPublished h.id
                      (extractPostId ("Post published with ID: " ++ (env h.id).postId))
                      now store).2).1,
                  h.id :: (runInterleaving env now (List.replicate rest.length true ++ bs)
                    ⟨some rest⟩ c2
                    (ScheduledPostModel.markAsPublished h.id
                      (extractPostId ("Post published with ID: " ++ (env h.id).postId))
                      now store).2).2) := by
            simp [List.replicate_succ, runInterleaving, cycleStep,
              LinkedInAPI.createPost, hok]
          have hproc : procAll env now (h :: rest) store
              = procAll env now rest
                  (ScheduledPostModel.markAsPublished h.id
                    (extractPostId ("Post published with ID: " ++ (env h.id).postId))
                    now store).2 := by
            simp [procAll, LinkedInAPI.createPost, hok]
          rw [hstep, runInterleaving_left env now rest bs c2 _, hproc]
          simp
      | false =>
          have hstep :
              runInterleaving env now (List.replicate (h :: rest).length true ++ bs)
                ⟨some (h :: rest)⟩ c2 store
              = ((runInterleaving env now (List.replicate rest.length true ++ bs)
                    ⟨some rest⟩ c2
                    (ScheduledPostModel.markAsFailed h.id
                      ("LinkedIn API error: " ++ "Failed to create LinkedIn post: "
                        ++ (env h.id).body) now store).2).1,
                  h.id :: (runInterleaving env now (List.replicate rest.length true ++ bs)
                    ⟨some rest⟩ c2
                    (ScheduledPostModel.markAsFailed h.id
                      ("LinkedIn API error: " ++ "Failed to create LinkedIn post: "
                        ++ (env h.id).body) now store).2).2) := by
            simp [List.replicate_succ, runInterleaving, cycleStep,
              LinkedInAPI.createPost, hok]
          have hproc : procAll env now (h :: rest) store
              = procAll env now rest
                  (ScheduledPostModel.markAsFailed h.id
                    ("LinkedIn API error: " ++ "Failed to create LinkedIn post: "
                      ++ (env h.id).body) now store).2 := by
            simp [procAll, LinkedInAPI.createPost, hok]
          rw [hstep, runInterleaving_left env now rest bs c2 _, hproc]
          simp

/-- Letting the second in-flight cycle run all its remaining work
uninterrupted, symmetrically. -/
theorem runInterleaving_right (env : Nat → HttpResponse) (now : Int) :
    ∀ (l : List ScheduledPost) (bs : List Bool) (c1 : CycleState) (store : Store),
      runInterleaving env now (List.replicate l.length false ++ bs) c1 ⟨some l⟩ store
        = ((runInterleaving env now bs c1 ⟨some []⟩ (procAll env now l store)).1,
            l.map ScheduledPost.id
              ++ (runInterleaving env now bs c1 ⟨some []⟩ (procAll env now l store)).2)
  | [], bs, c1, store => by simp [procAll]
  | h :: rest, bs, c1, store => by
      cases hok : (env h.id).ok with
      | true =>
          have hstep :
              runInterleaving env now (List.replicate (h :: rest).length false ++ bs)
                c1 ⟨some (h :: rest)⟩ store
              = ((runInterleaving env now (List.replicate rest.length false ++ bs)
                    c1 ⟨some rest⟩
                    (ScheduledPostModel.markAsPublished h.id
                      (extractPostId ("Post published with ID: " ++ (env h.id).postId))
                      now store).2).1,
                  h.id :: (runInterleaving env now (List.replicate rest.length false ++ bs)
                    c1 ⟨some rest⟩
                    (ScheduledPostModel.markAsPublished h.id
                      (extractPostId ("Post published with ID: " ++ (env h.id).postId))
                      now store).2).2) := by
            simp [List.replicate_succ, runInterleaving, cycleStep,
              LinkedInAPI.createPost, hok]
          have hproc : procAll env now (h :: rest) store
              = procAll env now rest
                  (ScheduledPostModel.markAsPublished h.id
                    (extractPostId ("Post published with ID: " ++ (env h.id).postId))
                    now store).2 := by
            simp [procAll, LinkedInAPI.createPost, hok]
          rw [hstep, runInterleaving_right env now rest bs c1 _, hproc]
          simp
      | false =>
          have hstep :
              runInterleaving env now (List.replicate (h :: rest).length false ++ bs)
                c1 ⟨some (h :: rest)⟩ store
              = ((runInterleaving env now (List.replicate rest.length false ++ bs)
                    c1 ⟨some rest⟩
                    (ScheduledPostModel.markAsFailed h.id
                      ("LinkedIn API error: " ++ "Failed to create LinkedIn post: "
                        ++ (env h.id).body) now store).2).1,
                  h.id :: (runInterleaving env now (List.replicate rest.length false ++ bs)
                    c1 ⟨some rest⟩
                    (ScheduledPostModel.markAsFailed h.id
                      ("LinkedIn API error: " ++ "Failed to create LinkedIn post: "
                        ++ (env h.id).body) now store).2).2) := by
            simp [List.replicate_succ, runInterleaving, cycleStep,
              LinkedInAPI.createPost, hok]
          have hproc : procAll env now (h :: rest) store
              = procAll env now rest
                  (ScheduledPostModel.markAsFailed h.id
                    ("LinkedIn API error: " ++ "Failed to create LinkedIn post: "
                      ++ (env h.id).body) now store).2 := by
            simp [procAll, LinkedInAPI.createPost, hok]
          rw [hstep, runInterleaving_right env now rest bs c1 _, hproc]
          simp

/-- Unfolding of `processDueScheduledPosts` into snapshot plus loop. -/
theorem processDueScheduledPosts_def (env : Nat → HttpResponse) (now : Int)
    (store : Store) :
    LinkedInAPI.processDueScheduledPosts env now store
      = processPosts env now (ScheduledPostModel.getDuePosts now store) 0 store [] := rfl

/-- A failed refresh exchange leaves the credential state untouched. -/
theorem refreshToken_false_state (resp : RefreshResponse) (now : Int)
    (st : OAuthState)
    (h : (LinkedInOAuthProvider.refreshToken resp now st).1 = false) :
    (LinkedInOAuthProvider.refreshToken resp now st).2 = st := by
  unfold LinkedInOAuthProvider.refreshToken at h ⊢
  by_cases h1 : st.mem.refreshToken = ""
  · simp [h1]
  · by_cases h2 : resp.ok
    · simp [h1, h2] at h
    · simp [h1, h2]

/-- The snapshot hypotheses of `processPosts_spec` hold for the due snapshot
of a store with pairwise-distinct ids. -/
theorem due_snapshot_hyps (now : Int) (store : Store)
    (hn : (store.map ScheduledPost.id).Nodup) :
    ((ScheduledPostModel.getDuePosts now store).map ScheduledPost.id).Nodup
    ∧ (∀ p ∈ ScheduledPostModel.getDuePosts now store,
        ScheduledPostModel.getById p.id store = some p)
    ∧ (∀ p ∈ ScheduledPostModel.getDuePosts now store, p.status = Status.pending) := by
  refine ⟨getDuePosts_nodup hn, ?_, ?_⟩
  · intro p hp
    exact getById_of_mem_nodup store hn p (mem_getDuePosts.mp hp).1
  · intro p hp
    exact (mem_getDuePosts.mp hp).2.1

/-! ## Claim theorems -/

/-- C1 (counterexample): a due pending job whose publish call fails with a
transient server error — HTTP 500, a `TransportError` in the spec's taxonomy
— is transitioned to `failed` by the cycle, not left `pending` for a retry on
a later cycle as the claim states. -/
theorem transportFailure_marks_failed :
    (LinkedInAPI.processDueScheduledPosts envServerError 10 [examplePending]).2.1.map
        ScheduledPost.status = [Status.failed]
    ∧ (LinkedInAPI.processDueScheduledPosts envServerError 10 [examplePending]).2.1.map
        ScheduledPost.status ≠ [Status.pending] := by
  exact ⟨by decide, by decide⟩

/-- C1 (amended): every publish failure — transient server error and
permanent rejection alike — transitions the due job to `failed` with the
error message stored; and `createPost` reports a failure identically whatever
the HTTP status code was, so the scheduler cannot distinguish the two failure
kinds and retries neither. -/
theorem publish_failure_always_failed (env : Nat → HttpResponse) (now : Int)
    (store : Store) (j : ScheduledPost)
    (hn : (store.map ScheduledPost.id).Nodup) (hj : j ∈ store)
    (hpend : j.status = Status.pending) (hdue : j.scheduledTime ≤ now)
    (hfail : (env j.id).ok = false) :
    (∃ q : ScheduledPost,
      ScheduledPostModel.getById j.id
          (LinkedInAPI.processDueScheduledPosts env now store).2.1 = some q
        ∧ q.status = Status.failed
        ∧ q.error = some ("LinkedIn API error: "
            ++ "Failed to create LinkedIn post: " ++ (env j.id).body))
    ∧ (∀ s1 s2 : Nat, ∀ b pid : String,
        LinkedInAPI.createPost { ok := false, status := s1, body := b, postId := pid }
          = LinkedInAPI.createPost { ok := false, status := s2, body := b, postId := pid }) := by
  constructor
  · obtain ⟨hDn, hDmem, hDpend⟩ := due_snapshot_hyps now store hn
    obtain ⟨-, -, -, -, he⟩ :=
      processPosts_spec env now (ScheduledPostModel.getDuePosts now store) 0 store []
        hDn hDmem hDpend
    have hjD : j ∈ ScheduledPostModel.getDuePosts now store :=
      mem_getDuePosts.mpr ⟨hj, hpend, hdue⟩
    obtain ⟨q, hq, hqs⟩ := he j hjD
    rw [hfail] at hqs
    simp only [Bool.false_eq_true, if_false] at hqs
    rw [processDueScheduledPosts_def]
    exact ⟨q, hq, hqs.1, hqs.2⟩
  · intro s1 s2 b pid
    rfl

/-- C1 witness: the amended theorem evaluated at a concrete due job and a
500-response platform. -/
theorem publish_failure_always_failed_witness :
    (∃ q : ScheduledPost,
      ScheduledPostModel.getById examplePending.id
          (LinkedInAPI.processDueScheduledPosts envServerError 10 [examplePending]).2.1 = some q
        ∧ q.status = Status.failed
        ∧ q.error = some ("LinkedIn API error: "
            ++ "Failed to create LinkedIn post: " ++ (envServerError examplePending.id).body))
    ∧ (∀ s1 s2 : Nat, ∀ b pid : String,
        LinkedInAPI.createPost { ok := false, status := s1, body := b, postId := pid }
          = LinkedInAPI.createPost { ok := false, status := s2, body := b, postId := pid }) :=
  publish_failure_always_failed envServerError 10 [examplePending] examplePending
    (by decide) (by decide) (by decide) (by decide) (by decide)

/-- C3 (code evaluated at the failing input): with a held access token that
expired at epoch 0 and no refresh token — so the credential is neither
unexpired nor refreshable — `hasValidToken` still answers `true` at time
1000, whatever the authorization server would reply, because the source
discards the refresh result (the `return await` of the intended
`return await this.refreshToken()` sits inside a trailing line comment) and
falls through to `return true`. -/
theorem hasValidToken_true_when_expired_unrefreshable :
    exampleExpiredState.mem.expiresAt < 1000
    ∧ exampleExpiredState.mem.refreshToken = ""
    ∧ exampleExpiredState.mem.accessToken ≠ ""
    ∧ (∀ resp : RefreshResponse,
        (LinkedInOAuthProvider.hasValidToken resp 1000 exampleExpiredState).1 = true) := by
  refine ⟨by decide, by decide, by decide, ?_⟩
  intro resp
  simp [LinkedInOAuthProvider.hasValidToken, LinkedInOAuthProvider.refreshToken,
    exampleExpiredState]

/-- C4 (counterexample): `markAsFailed` against a job whose status is already
`published` succeeds — the update matches on `_id` alone, reports
`matchedCount > 0`, and even overwrites the terminal status. -/
theorem update_succeeds_on_published_job :
    examplePublished.status = Status.published
    ∧ (ScheduledPostModel.markAsFailed 1 "boom" 7 [examplePublished]).1 = true
    ∧ (ScheduledPostModel.markAsFailed 1 "boom" 7 [examplePublished]).2.map
        ScheduledPost.status = [Status.failed] := by
  exact ⟨by decide, by decide, by decide⟩

/-- C4 (amended): the status transitions the scheduler applies are updates
keyed on the job id only — they match exactly when a document with that id
exists, whatever its current status; only a request against a deleted or
never-existing job fails to match. -/
theorem update_matches_iff_id_exists (id : Nat) (u : PostUpdate) (now : Int)
    (store : Store) :
    (ScheduledPostModel.update id u now store).1 = true ↔ ∃ p ∈ store, p.id = id :=
  update_matched_iff id u now store

/-- C5 (counterexample): with an expired credential and a successful refresh
that grants only 1 second of lifetime, `getAccessToken` returns the new token
although its expiry lies within the 5-minute safety margin — the margin is
checked before the refresh but never re-checked on the refreshed
credential. -/
theorem getAccessToken_short_refresh_within_margin :
    (LinkedInOAuthProvider.getAccessToken shortGrant 1000000 staleState).1
        = Except.ok "new"
    ∧ (LinkedInOAuthProvider.getAccessToken shortGrant 1000000 staleState).2.mem.expiresAt
        < 1000000 + 5 * 60 * 1000 := by
  exact ⟨rfl, by decide⟩

/-- C5 (amended): `getAccessToken` returns the held token unchanged when its
expiry is at least the 5-minute margin away; when the margin is violated and
the refresh fails it throws and leaves the credential untouched; when the
refresh succeeds it returns the refreshed token, whose expiry is
`now + expires_in·1000` — persisted before returning — and which clears the
safety margin provided the granted lifetime is at least the margin. -/
theorem getAccessToken_spec (resp : RefreshResponse) (now : Int) (st : OAuthState) :
    (now + 5 * 60 * 1000 ≤ st.mem.expiresAt →
      LinkedInOAuthProvider.getAccessToken resp now st = (Except.ok st.mem.accessToken, st))
    ∧ (st.mem.expiresAt < now + 5 * 60 * 1000 →
        (LinkedInOAuthProvider.refreshToken resp now st).1 = false →
        LinkedInOAuthProvider.getAccessToken resp now st
          = (Except.error "Failed to refresh token and current token is expired", st))
    ∧ (st.mem.expiresAt < now + 5 * 60 * 1000 →
        st.mem.refreshToken ≠ "" → resp.ok = true →
        (LinkedInOAuthProvider.getAccessToken resp now st).1 = Except.ok resp.accessToken
        ∧ (LinkedInOAuthProvider.getAccessToken resp now st).2.mem.expiresAt
            = now + resp.expiresIn * 1000
        ∧ (LinkedInOAuthProvider.getAccessToken resp now st).2.disk
            = (LinkedInOAuthProvider.getAccessToken resp now st).2.mem
        ∧ (5 * 60 * 1000 ≤ resp.expiresIn * 1000 →
            now + 5 * 60 * 1000
              ≤ (LinkedInOAuthProvider.getAccessToken resp now st).2.mem.expiresAt)) := by
  refine ⟨?_, ?_, ?_⟩
  · intro h
    unfold LinkedInOAuthProvider.getAccessToken
    rw [if_neg (not_lt.mpr h)]
  · intro h hfail
    unfold LinkedInOAuthProvider.getAccessToken
    rw [if_pos h]
    dsimp only
    rw [hfail, refreshToken_false_state resp now st hfail]
    simp
  · intro h hne hok
    have hr : LinkedInOAuthProvider.refreshToken resp now st
        = (true,
            { mem :=
                { st.mem with
                  accessToken := resp.accessToken
                  refreshToken := match resp.refreshTok with
                    | some r => r
                    | none => st.mem.refreshToken
                  expiresAt := now + resp.expiresIn * 1000 }
              disk :=
                { st.mem with
                  accessToken := resp.accessToken
                  refreshToken := match resp.refreshTok with
                    | some r => r
                    | none => st.mem.refreshToken
                  expiresAt := now + resp.expiresIn * 1000 } }) := by
      simp [LinkedInOAuthProvider.refreshToken, hne, hok]
    refine ⟨?_, ?_, ?_, ?_⟩
    · unfold LinkedInOAuthProvider.getAccessToken
      rw [if_pos h]
      dsimp only
      rw [hr]
      simp
    · unfold LinkedInOAuthProvider.getAccessToken
      rw [if_pos h]
      dsimp only
      rw [hr]
      simp
    · unfold LinkedInOAuthProvider.getAccessToken
      rw [if_pos h]
      dsimp only
      rw [hr]
      simp
    · intro hlong
      unfold LinkedInOAuthProvider.getAccessToken
      rw [if_pos h]
      dsimp only
      rw [hr]
      rw [if_pos rfl]
      dsimp only
      omega

/-- C5 witness: the amended theorem's refresh branch evaluated for an expired
credential and an hour-long grant. -/
theorem getAccessToken_spec_witness :
    (LinkedInOAuthProvider.getAccessToken hourGrant 1000000 staleState).1
        = Except.ok hourGrant.accessToken
    ∧ (LinkedInOAuthProvider.getAccessToken hourGrant 1000000 staleState).2.mem.expiresAt
        = 1000000 + hourGrant.expiresIn * 1000
    ∧ (LinkedInOAuthProvider.getAccessToken hourGrant 1000000 staleState).2.disk
        = (LinkedInOAuthProvider.getAccessToken hourGrant 1000000 staleState).2.mem
    ∧ (5 * 60 * 1000 ≤ hourGrant.expiresIn * 1000 →
        1000000 + 5 * 60 * 1000
          ≤ (LinkedInOAuthProvider.getAccessToken hourGrant 1000000 staleState).2.mem.expiresAt) :=
  (getAccessToken_spec hourGrant 1000000 staleState).2.2 (by decide) (by decide) (by decide)

set_option maxRecDepth 4096 in
/-- C6 (counterexample): `getScheduledPosts` is built on the unfiltered
`getAll()`, so a job in the terminal status `published` appears in its
results and is rendered with its status line. -/
theorem getScheduledPosts_includes_published :
    examplePublished ∈ ScheduledPostModel.getAll [examplePublished]
    ∧ examplePublished.status ≠ Status.pending
    ∧ LinkedInAPI.getScheduledPosts [examplePublished]
        = "1. \x22hi\x22 - Published at 5 (ID: 1)" := by
  exact ⟨by decide, by decide, rfl⟩

/-- C6 (amended): `getAll` — the query behind `getScheduledPosts` — returns
every job in the store regardless of status (pending, published and failed
alike); only a deleted job is absent, because deletion removes it from the
store. -/
theorem getAll_returns_all_and_deleted_absent (store : Store) (j : ScheduledPost) :
    (j ∈ ScheduledPostModel.getAll store ↔ j ∈ store)
    ∧ ((store.map ScheduledPost.id).Nodup →
        ∀ q ∈ (ScheduledPostModel.deleteOne j.id store).2, q.id ≠ j.id) :=
  ⟨mem_sortByTime store, fun hn => deleteOne_id_gone j.id store hn⟩

/-- C6 witness: the amended theorem at a two-job store — the failed job shows
up in `getAll` and vanishes after deletion. -/
theorem getAll_returns_all_witness :
    (exampleFailed ∈ ScheduledPostModel.getAll [examplePending, exampleFailed]
      ↔ exampleFailed ∈ [examplePending, exampleFailed])
    ∧ ((([examplePending, exampleFailed] : Store).map ScheduledPost.id).Nodup →
        ∀ q ∈ (ScheduledPostModel.deleteOne exampleFailed.id
            [examplePending, exampleFailed]).2, q.id ≠ exampleFailed.id) :=
  getAll_returns_all_and_deleted_absent [examplePending, exampleFailed] exampleFailed

/-- C7: `processDueScheduledPosts` returns exactly the number of jobs that
transitioned to `published` in the pass — the store's published count rises
by precisely the returned count, so jobs marked `failed` (none stay
`pending`) are not counted — and both the timer callback and the manual
trigger of `SchedulerService` are the very same invocation of
`processDueScheduledPosts`, so automatic and manual processing have identical
per-job semantics. -/
theorem published_count_and_single_code_path (env : Nat → HttpResponse)
    (now : Int) (store : Store) (hn : (store.map ScheduledPost.id).Nodup) :
    countPub (LinkedInAPI.processDueScheduledPosts env now store).2.1
        = countPub store + (LinkedInAPI.processDueScheduledPosts env now store).1
    ∧ SchedulerService.processDuePosts env now store
        = (LinkedInAPI.processDueScheduledPosts env now store).2.1
    ∧ SchedulerService.manuallyProcessDuePosts env now store
        = LinkedInAPI.processDueScheduledPosts env now store := by
  refine ⟨?_, rfl, rfl⟩
  obtain ⟨hDn, hDmem, hDpend⟩ := due_snapshot_hyps now store hn
  obtain ⟨ha, -, hc, -, -⟩ :=
    processPosts_spec env now (ScheduledPostModel.getDuePosts now store) 0 store []
      hDn hDmem hDpend
  rw [processDueScheduledPosts_def, ha, hc]
  omega

/-- C7 witness: the count theorem evaluated on a store holding one due
pending job and one failed job, against an accepting platform. -/
theorem published_count_witness :
    countPub (LinkedInAPI.processDueScheduledPosts envOk 10
          [examplePending, exampleFailed]).2.1
        = countPub [examplePending, exampleFailed]
            + (LinkedInAPI.processDueScheduledPosts envOk 10
                [examplePending, exampleFailed]).1
    ∧ SchedulerService.processDuePosts envOk 10 [examplePending, exampleFailed]
        = (LinkedInAPI.processDueScheduledPosts envOk 10
            [examplePending, exampleFailed]).2.1
    ∧ SchedulerService.manuallyProcessDuePosts envOk 10 [examplePending, exampleFailed]
        = LinkedInAPI.processDueScheduledPosts envOk 10 [examplePending, exampleFailed] :=
  published_count_and_single_code_path envOk 10 [examplePending, exampleFailed] (by decide)

/-- C8: `deleteScheduledPost` reports `Scheduled post not found` when no
document carries the id, reports the conflict
`Cannot delete a post that has already been published` against a published
job — returning no modified store, so the job is untouched — and for a
`pending` job returns success with a store from which the id is gone. -/
theorem deleteScheduledPost_spec (store : Store) (id : Nat)
    (hn : (store.map ScheduledPost.id).Nodup) :
    (ScheduledPostModel.getById id store = none →
      LinkedInAPI.deleteScheduledPost id store
        = Except.error "Scheduled post not found")
    ∧ (∀ post : ScheduledPost, ScheduledPostModel.getById id store = some post →
        post.status = Status.published →
        LinkedInAPI.deleteScheduledPost id store
          = Except.error "Cannot delete a post that has already been published")
    ∧ (∀ post : ScheduledPost, ScheduledPostModel.getById id store = some post →
        post.status = Status.pending →
        ∃ store2 : Store,
          LinkedInAPI.deleteScheduledPost id store
              = Except.ok ("Successfully deleted scheduled post with ID: "
                  ++ toString id, store2)
            ∧ ∀ q ∈ store2, q.id ≠ id) := by
  refine ⟨?_, ?_, ?_⟩
  · intro hnone
    simp [LinkedInAPI.deleteScheduledPost, hnone]
  · intro post hpost hpub
    simp [LinkedInAPI.deleteScheduledPost, hpost, hpub]
  · intro post hpost hpend
    have hnp : ¬ post.status = Status.published := by
      rw [hpend]; intro hc; cases hc
    have hfound : (ScheduledPostModel.deleteOne id store).1 = true :=
      (deleteOne_found id store).mpr ⟨post, (getById_mem hpost).1, (getById_mem hpost).2⟩
    refine ⟨(ScheduledPostModel.deleteOne id store).2, ?_,
      deleteOne_id_gone id store hn⟩
    simp [LinkedInAPI.deleteScheduledPost, hpost, hnp, hfound]

/-- C8 witness: the delete contract evaluated for a pending job. -/
theorem deleteScheduledPost_spec_witness :
    ∃ store2 : Store,
      LinkedInAPI.deleteScheduledPost 1 [examplePending]
          = Except.ok ("Successfully deleted scheduled post with ID: "
              ++ toString 1, store2)
        ∧ ∀ q ∈ store2, q.id ≠ 1 :=
  (deleteScheduledPost_spec [examplePending] 1 (by decide)).2.2 examplePending
    (by decide) (by decide)

/-- C10: deletion is refused only for `published` jobs — any existing job
whose status is not `published`, in particular a `failed` one, is deleted
successfully and no document with its id remains in the store. -/
theorem delete_succeeds_unless_published (store : Store) (id : Nat)
    (post : ScheduledPost) (hn : (store.map ScheduledPost.id).Nodup)
    (hpost : ScheduledPostModel.getById id store = some post)
    (hnp : post.status ≠ Status.published) :
    ∃ store2 : Store,
      LinkedInAPI.deleteScheduledPost id store
          = Except.ok ("Successfully deleted scheduled post with ID: "
              ++ toString id, store2)
        ∧ ∀ q ∈ store2, q.id ≠ id := by
  have hfound : (ScheduledPostModel.deleteOne id store).1 = true :=
    (deleteOne_found id store).mpr ⟨post, (getById_mem hpost).1, (getById_mem hpost).2⟩
  refine ⟨(ScheduledPostModel.deleteOne id store).2, ?_,
    deleteOne_id_gone id store hn⟩
  simp [LinkedInAPI.deleteScheduledPost, hpost, hnp, hfound]

/-- C10 witness: deleting a `failed` job succeeds and removes it. -/
theorem delete_succeeds_unless_published_witness :
    ∃ store2 : Store,
      LinkedInAPI.deleteScheduledPost 2 [examplePending, exampleFailed]
          = Except.ok ("Successfully deleted scheduled post with ID: "
              ++ toString 2, store2)
        ∧ ∀ q ∈ store2, q.id ≠ 2 :=
  delete_succeeds_unless_published [examplePending, exampleFailed] 2 exampleFailed
    (by decide) (by decide) (by decide)

/-- C2: under the system's step semantics, a job whose status is terminal
(`published` or `failed`) keeps that status across every operation — it can
only disappear through deletion, never change status; every publish attempt a
step makes targets a job that was `pending` in the pre-state (so a job is
never re-attempted once it leaves `pending`); and the due-job query selects
only `pending` jobs. -/
theorem terminal_status_immutable_and_attempts_pending (now : Int) (op : SysOp)
    (s : SysState) (hinv : s.Inv) (j : ScheduledPost) (hj : j ∈ s.store)
    (hterm : j.status ≠ Status.pending) :
    (∀ j' ∈ (sysStep now op s).1.store, j'.id = j.id → j'.status = j.status)
    ∧ (∀ i ∈ (sysStep now op s).2,
        ∃ p ∈ s.store, p.id = i ∧ p.status = Status.pending)
    ∧ (∀ p ∈ ScheduledPostModel.getDuePosts now s.store,
        p.status = Status.pending) := by
  obtain ⟨hnod, hfresh⟩ := hinv
  refine ⟨?_, ?_, fun p hp => (mem_getDuePosts.mp hp).2.1⟩
  · cases op with
    | schedule c t =>
        intro j' hj' hid
        have hj'' : j' ∈ s.store ++ [ScheduledPostModel.createDoc s.nextId c t now] := hj'
        rcases List.mem_append.mp hj'' with hmem | hnew
        · rw [eq_of_mem_of_id_eq hnod hmem hj hid]
        · exfalso
          have hj'eq : j' = ScheduledPostModel.createDoc s.nextId c t now :=
            List.mem_singleton.mp hnew
          have hidlt := hfresh j hj
          rw [hj'eq] at hid
          simp [ScheduledPostModel.createDoc] at hid
          omega
    | processDue env =>
        intro j' hj' hid
        obtain ⟨hDn, hDmem, hDpend⟩ := due_snapshot_hyps now s.store hnod
        obtain ⟨-, -, -, hd, -⟩ :=
          processPosts_spec env now (ScheduledPostModel.getDuePosts now s.store)
            0 s.store [] hDn hDmem hDpend
        have hDnotj : ∀ p ∈ ScheduledPostModel.getDuePosts now s.store,
            p.id ≠ j.id := by
          intro p hp hc
          have hpm := mem_getDuePosts.mp hp
          have hpj : p = j := eq_of_mem_of_id_eq hnod hpm.1 hj hc
          rw [hpj] at hpm
          exact hterm hpm.2.1
        have hstep : (sysStep now (SysOp.processDue env) s).1.store
            = (processPosts env now (ScheduledPostModel.getDuePosts now s.store)
                0 s.store []).2.1 := rfl
        rw [hstep] at hj'
        have hn' : (((processPosts env now
              (ScheduledPostModel.getDuePosts now s.store) 0 s.store []).2.1).map
            ScheduledPost.id).Nodup := by
          rw [processPosts_map_id]
          exact hnod
        have h3 := getById_of_mem_nodup _ hn' j' hj'
        rw [hid] at h3
        have h1 := hd j.id hDnotj
        have h2 := getById_of_mem_nodup s.store hnod j hj
        have hj'j : j' = j := Option.some.inj (h3.symm.trans (h1.trans h2))
        rw [hj'j]
    | deletePost did =>
        intro j' hj' hid
        cases hdel : LinkedInAPI.deleteScheduledPost did s.store with
        | error e =>
            have hs : (sysStep now (SysOp.deletePost did) s).1.store = s.store := by
              simp [sysStep, hdel]
            rw [hs] at hj'
            rw [eq_of_mem_of_id_eq hnod hj' hj hid]
        | ok r =>
            have hs : (sysStep now (SysOp.deletePost did) s).1.store = r.2 := by
              simp [sysStep, hdel]
            rw [hs] at hj'
            have hr2 : r.2 = (ScheduledPostModel.deleteOne did s.store).2 :=
              deleteScheduledPost_ok_store hdel
            rw [hr2] at hj'
            have hj'' := mem_of_mem_deleteOne did s.store j' hj'
            rw [eq_of_mem_of_id_eq hnod hj'' hj hid]
  · cases op with
    | schedule c t =>
        intro i hi
        simp [sysStep, ScheduledPostModel.create] at hi
    | processDue env =>
        intro i hi
        obtain ⟨hDn, hDmem, hDpend⟩ := due_snapshot_hyps now s.store hnod
        obtain ⟨-, hb, -, -, -⟩ :=
          processPosts_spec env now (ScheduledPostModel.getDuePosts now s.store)
            0 s.store [] hDn hDmem hDpend
        have hsteplog : (sysStep now (SysOp.processDue env) s).2
            = (processPosts env now (ScheduledPostModel.getDuePosts now s.store)
                0 s.store []).2.2 := rfl
        rw [hsteplog, hb] at hi
        simp only [List.nil_append] at hi
        obtain ⟨p, hp, hpid⟩ := List.mem_map.mp hi
        exact ⟨p, (mem_getDuePosts.mp hp).1, hpid, (mem_getDuePosts.mp hp).2.1⟩
    | deletePost did =>
        intro i hi
        cases hdel : LinkedInAPI.deleteScheduledPost did s.store with
        | error e => simp [sysStep, hdel] at hi
        | ok r => simp [sysStep, hdel] at hi

/-- C2 witness: the invariant theorem evaluated for a `failed` job while a
cycle runs against an accepting platform. -/
theorem terminal_status_witness :
    (∀ j' ∈ (sysStep 10 (SysOp.processDue envOk)
        ⟨[examplePending, exampleFailed], 3⟩).1.store,
        j'.id = exampleFailed.id → j'.status = exampleFailed.status)
    ∧ (∀ i ∈ (sysStep 10 (SysOp.processDue envOk)
        ⟨[examplePending, exampleFailed], 3⟩).2,
        ∃ p ∈ ([examplePending, exampleFailed] : Store),
          p.id = i ∧ p.status = Status.pending)
    ∧ (∀ p ∈ ScheduledPostModel.getDuePosts 10 [examplePending, exampleFailed],
        p.status = Status.pending) :=
  terminal_status_immutable_and_attempts_pending 10 (SysOp.processDue envOk)
    ⟨[examplePending, exampleFailed], 3⟩ ⟨by decide, by decide⟩ exampleFailed
    (by decide) (by decide)

/-- C9 (counterexample): with one due pending job in the store, a timer cycle
and a manual cycle in flight together — an interleaving nothing in
`SchedulerService` prevents, as it holds no lock or busy flag and
`manuallyProcessDuePosts` checks nothing before running — can both take their
due snapshot before either processes it; the resulting publish-call trace is
`[1, 1]`: the same job is sent to the platform twice, not attempted by
exactly one cycle. -/
theorem double_publish_interleaving :
    (runInterleaving envOk 10 [true, false, true, false] ⟨none⟩ ⟨none⟩
        [examplePending]).2 = [1, 1]
    ∧ examplePending.status = Status.pending
    ∧ examplePending.scheduledTime ≤ 10 := by
  exact ⟨by decide, by decide, by decide⟩

/-- C9 (amended): the scheduler provides no mutual exclusion between cycles;
for every store and every due pending job, the permitted interleaving in
which both in-flight cycles take their due snapshot before either starts
processing makes at least two publish calls for that job — each cycle
attempts its full snapshot regardless of what the other already recorded. -/
theorem overlapping_cycles_attempt_twice (env : Nat → HttpResponse) (now : Int)
    (store : Store) (j : ScheduledPost) (hj : j ∈ store)
    (hpend : j.status = Status.pending) (hdue : j.scheduledTime ≤ now) :
    2 ≤ ((runInterleaving env now
        ([true, false]
          ++ (List.replicate (ScheduledPostModel.getDuePosts now store).length true
              ++ List.replicate (ScheduledPostModel.getDuePosts now store).length false))
        ⟨none⟩ ⟨none⟩ store).2).count j.id := by
  have hfetch :
      runInterleaving env now
        ([true, false]
          ++ (List.replicate (ScheduledPostModel.getDuePosts now store).length true
              ++ List.replicate (ScheduledPostModel.getDuePosts now store).length false))
        ⟨none⟩ ⟨none⟩ store
      = runInterleaving env now
          (List.replicate (ScheduledPostModel.getDuePosts now store).length true
            ++ List.replicate (ScheduledPostModel.getDuePosts now store).length false)
          ⟨some (ScheduledPostModel.getDuePosts now store)⟩
          ⟨some (ScheduledPostModel.getDuePosts now store)⟩ store := rfl
  rw [hfetch,
    runInterleaving_left env now (ScheduledPostModel.getDuePosts now store)
      (List.replicate (ScheduledPostModel.getDuePosts now store).length false)
      ⟨some (ScheduledPostModel.getDuePosts now store)⟩ store]
  rw [show List.replicate (ScheduledPostModel.getDuePosts now store).length false
      = List.replicate (ScheduledPostModel.getDuePosts now store).length false ++ []
    from (List.append_nil _).symm]
  rw [runInterleaving_right env now (ScheduledPostModel.getDuePosts now store) []
    ⟨some []⟩ (procAll env now (ScheduledPostModel.getDuePosts now store) store)]
  have hjD : j ∈ ScheduledPostModel.getDuePosts now store :=
    mem_getDuePosts.mpr ⟨hj, hpend, hdue⟩
  have hmem : j.id ∈ (ScheduledPostModel.getDuePosts now store).map ScheduledPost.id :=
    List.mem_map_of_mem ScheduledPost.id hjD
  have hpos : 0 < ((ScheduledPostModel.getDuePosts now store).map
      ScheduledPost.id).count j.id := List.count_pos_iff.mpr hmem
  simp only [runInterleaving, List.count_append]
  omega

/-- C9 witness: the amended theorem at the one-job store of the
counterexample. -/
theorem overlapping_cycles_attempt_twice_witness :
    2 ≤ ((runInterleaving envOk 10
        ([true, false]
          ++ (List.replicate (ScheduledPostModel.getDuePosts 10 [examplePending]).length true
              ++ List.replicate
                  (ScheduledPostModel.getDuePosts 10 [examplePending]).length false))
        ⟨none⟩ ⟨none⟩ [examplePending]).2).count examplePending.id :=
  overlapping_cycles_attempt_twice envOk 10 [examplePending] examplePending
    (by decide) (by decide) (by decide)
